import Mathlib

/-!
Shallow embedding of the `env` Go package (env.go): a declarative
environment-variable configuration loader.  The registry is a list of
variable descriptors; typed constructors (env.String, env.Int,
env.Float64, env.Bool) build descriptors, env.Parse runs one pass over
the registry reading the process environment, and env.Help renders a
listing.  Mutable output cells (Go pointers) are modelled by explicit
state passing: a list of cell values aligned index-by-index with the
registry (each registration allocates a fresh cell, so no aliasing).
Machine integers are modelled as Int with explicit range checks where
the Go standard library enforces them.
-/

/-- Aliases used inside the `env` namespace, where the constructor names
String, Int and Bool of the Go API would otherwise shadow the Lean types. -/
abbrev Str := String

abbrev IntV := Int

abbrev BoolV := Bool

/-- Process environment as seen through os.Getenv: total map from names to
values, returning the empty string for unset names (Go cannot tell unset
apart from set-to-empty through Getenv, as the spec documents). -/
def Env := Str → Str

/-- Model of a Go float64 value, symbolic by provenance: no claim depends on
floating-point arithmetic, so values are tracked as the zero value, a
registration-time literal (by its written form), or the result of
strconv.ParseFloat on a raw environment string.  Distinct tokens may denote
equal float64 numbers; no theorem below equates floats across provenances. -/
inductive FloatV where
  | zero : FloatV
  | lit : Str → FloatV
  | ofString : Str → FloatV
deriving DecidableEq, Repr

/-- Model of the type-erased interface value stored in a descriptor (the
Go code stores values behind interface pointers and type-asserts). -/
inductive GoVal where
  | str : Str → GoVal
  | int : IntV → GoVal
  | float : FloatV → GoVal
  | bool : BoolV → GoVal
deriving DecidableEq, Repr

/-- Errors returned by processEnvVar.  The Go code returns a required-missing
error built with fmt.Errorf, or passes through the strconv error from the
setValue closure; Parse never reads the text of the strconv error (it formats
its own message), so that text is not modelled. -/
inductive PErr where
  | requiredMissing : Str → PErr
  | convErr : PErr
deriving DecidableEq, Repr

/-- Message of the required-missing error, from
fmt.Errorf with format string percent-s followed by " should be provided". -/
def PErr.message : PErr → Str
  | .requiredMissing n => n ++ " should be provided"
  | .convErr => "strconv error"

/-- Model of the envVar struct of env.go.  The value pointer and the envValue
scratch slot are modelled externally: the cell value is threaded as state, and
the raw capture is always the current environment value of the name (it is
written at the top of processEnvVar before any read).  The setValue closure
mutates through the value pointer only on success, so it is modelled as
returning an Option of the new cell value; setDefault takes the old cell and
the stored default and returns the new cell. -/
structure EnvVarD where
  name : Str
  varType : Str
  required : BoolV
  defaultValue : GoVal
  help : Str
  setValue : Str → Option GoVal
  setDefault : GoVal → GoVal → GoVal

/-- Base-10 value of a digit string, accumulated left to right exactly as the
conversion loop of strconv does (48 is the code of the digit zero). -/
def decDigitsVal (ds : List Char) : Nat :=
  ds.foldl (fun n c => n * 10 + (c.toNat - 48)) 0

/-- Sign handling at the top of strconv.ParseInt: a single leading plus or
minus is consumed, minus recording negativity; anything else is left for the
digit scan. -/
def signSplit (cs : List Char) : Bool × List Char :=
  match cs with
  | [] => (false, [])
  | c :: t =>
    if c = '+' then (false, t)
    else if c = '-' then (true, t)
    else (false, c :: t)

/-- Digit scan and range check of strconv.ParseInt(s, 10, 64) after the sign:
one or more decimal digits are required (ParseUint rejects an empty or
non-digit remainder), and the signed value must fit in int64, otherwise
ParseInt reports ErrRange, which the caller treats as failure. -/
def goParseIntCore (neg : Bool) (ds : List Char) : Option Int :=
  if ds = [] ∨ ¬ (ds.all Char.isDigit = true) then none
  else if neg then
    if decDigitsVal ds ≤ 2 ^ 63 then some (-(decDigitsVal ds : Int)) else none
  else
    if decDigitsVal ds ≤ 2 ^ 63 - 1 then some ((decDigitsVal ds : Int)) else none

/-- Model of strconv.ParseInt(s, 10, 64): an optional single sign followed by
one or more decimal digits, the value required to fit in int64.  No
underscores are permitted since the base argument is 10, not 0.  The empty
string falls through to the digit scan, which rejects it, as ParseInt does. -/
def goParseInt (s : Str) : Option Int :=
  goParseIntCore (signSplit s.data).1 (signSplit s.data).2

/-- Model of strconv.ParseBool: the exact twelve accepted literals. -/
def goParseBool (s : Str) : Option Bool :=
  if s = "1" ∨ s = "t" ∨ s = "T" ∨ s = "TRUE" ∨ s = "true" ∨ s = "True" then
    some true
  else if s = "0" ∨ s = "f" ∨ s = "F" ∨ s = "FALSE" ∨ s = "false" ∨ s = "False" then
    some false
  else none

/-- ASCII hexadecimal digit test, as strconv uses for hex mantissas. -/
def isHexDigitC (c : Char) : Bool :=
  c.isDigit || ('a' ≤ c && c ≤ 'f') || ('A' ≤ c && c ≤ 'F')

/-- Drops one leading sign character if present. -/
def dropSign : List Char → List Char
  | [] => []
  | c :: cs => if c = '+' ∨ c = '-' then cs else c :: cs

/-- True when the characters start with the 0x or 0X marker of a hex literal. -/
def hexStart : List Char → Bool
  | '0' :: c :: _ => c = 'x' || c = 'X'
  | _ => false

/-- Scanning loop of the underscoreOK check of strconv: saw tracks the class
of the previous character (caret for start, zero for digit or base marker,
underscore, or bang for anything else); an underscore must be both preceded
and followed by a digit. -/
def underscoreLoop (digit : Char → Bool) : Char → List Char → Bool
  | saw, [] => saw ≠ '_'
  | saw, c :: cs =>
    if digit c then underscoreLoop digit '0' cs
    else if c = '_' then (saw = '0' && underscoreLoop digit '_' cs)
    else if saw = '_' then false
    else underscoreLoop digit '!' cs

/-- Model of the underscoreOK check of strconv, run on the full raw string. -/
def underscoreOK (s : List Char) : Bool :=
  let t := dropSign s
  if hexStart t then underscoreLoop isHexDigitC '0' (t.drop 2)
  else underscoreLoop Char.isDigit '^' t

/-- Exponent digits of a float literal: optional sign then one or more
decimal digits. -/
def expPartOk (cs : List Char) : Bool :=
  let t := dropSign cs
  !t.isEmpty && t.all Char.isDigit

/-- Optional decimal exponent suffix (e or E) of a decimal float literal. -/
def expTail (cs : List Char) : Bool :=
  match cs with
  | [] => true
  | e :: r => (e = 'e' || e = 'E') && expPartOk r

/-- Mandatory binary exponent suffix (p or P) of a hex float literal. -/
def hexExpTail (cs : List Char) : Bool :=
  match cs with
  | [] => false
  | p :: r => (p = 'p' || p = 'P') && expPartOk r

/-- Decimal float body after the optional sign: digits with at most one dot,
at least one digit overall, then an optional exponent. -/
def decNumOk (cs : List Char) : Bool :=
  let ip := cs.takeWhile Char.isDigit
  let r1 := cs.drop ip.length
  match r1 with
  | '.' :: r2 =>
    let fp := r2.takeWhile Char.isDigit
    let r3 := r2.drop fp.length
    (!ip.isEmpty || !fp.isEmpty) && expTail r3
  | _ => !ip.isEmpty && expTail r1

/-- Hex float body after the 0x marker: hex digits with at most one dot, at
least one digit, then the mandatory p exponent with decimal digits. -/
def hexNumOk (cs : List Char) : Bool :=
  let ip := cs.takeWhile isHexDigitC
  let r1 := cs.drop ip.length
  match r1 with
  | '.' :: r2 =>
    let fp := r2.takeWhile isHexDigitC
    let r3 := r2.drop fp.length
    (!ip.isEmpty || !fp.isEmpty) && hexExpTail r3
  | _ => !ip.isEmpty && hexExpTail r1

/-- Number form of a float literal, on the underscore-stripped characters. -/
def numberOk (cs : List Char) : Bool :=
  let t := dropSign cs
  if hexStart t then hexNumOk (t.drop 2)
  else decNumOk t

/-- Special float forms of strconv: nan without sign, inf or infinity with an
optional sign, all case-insensitive (the sign falls through only to the
infinity branch of the special function of strconv). -/
def isSpecialFloat (s : Str) : Bool :=
  (s.data.map Char.toLower == "nan".data) ||
  (let t := (dropSign s.data).map Char.toLower
   t == "inf".data || t == "infinity".data)

/-- Syntax acceptance of strconv.ParseFloat(s, 64): special forms, or the
number grammar on the underscore-stripped string combined with the
underscoreOK placement check.  Overflow of the float64 range (ErrRange on
syntactically valid huge literals) is not modelled, as it needs
floating-point magnitude semantics and no claim depends on it. -/
def goFloatOk (s : Str) : Bool :=
  isSpecialFloat s ||
  (numberOk (s.data.filter (fun c => c ≠ '_')) && underscoreOK s.data)

/-- Model of strconv.ParseFloat(s, 64), with the value kept symbolic. -/
def goParseFloat (s : Str) : Option FloatV :=
  if goFloatOk s then some (FloatV.ofString s) else none

/-- Single-quote character, used by the Help formatter of env.go. -/
def sqc : Str := "\x27"

/-- Rendering of a default by the percent-v verb of fmt, as used by Help:
strings verbatim, ints in decimal with a leading minus when negative, bools
as true or false.  For the symbolic floats the stored written form is used;
Go would render the numeric value with the percent-g verb (for example 30.0
prints as 30), a difference no theorem below depends on, since a float never
renders as the empty string either way. -/
def floatFmtV : FloatV → Str
  | .zero => "0"
  | .lit s => s
  | .ofString s => s

/-- Rendering of a type-erased default value by the percent-v verb of fmt. -/
def goFmtV : GoVal → Str
  | .str s => s
  | .int n => toString n
  | .float f => floatFmtV f
  | .bool b => cond b "true" "false"

namespace env

/-- Model of processEnvVar of env.go: read the environment value of the name
(this also fills the envValue raw capture), then: empty and not required
applies the default; empty and required returns the required-missing error
without touching the cell; otherwise run the setValue closure, writing the
converted value on success and leaving the cell untouched on failure. -/
def processEnvVar (ev : Env) (e : EnvVarD) (cell : GoVal) : GoVal × Option PErr :=
  let raw := ev e.name
  if raw = "" ∧ e.required = false then (e.setDefault cell e.defaultValue, none)
  else if raw = "" ∧ e.required = true then (cell, some (PErr.requiredMissing e.name))
  else
    match e.setValue raw with
    | some v => (v, none)
    | none => (cell, some PErr.convErr)

/-- Error line Parse appends for a failing descriptor, from
fmt.Sprintf with the name, the varType string and the raw capture (which at
that point holds the current environment value of the name). -/
def parseMsg (ev : Env) (e : EnvVarD) : Str :=
  "expected: " ++ e.name ++ " type: " ++ e.varType ++ " got: " ++ ev e.name

/-- Loop body of Parse of env.go: every descriptor is processed in order,
cells are updated through their pointers, and an error line is appended for
each failing descriptor.  The cell list is aligned index-by-index with the
registry; the mismatch case is unreachable in every use below. -/
def parseLoop (ev : Env) : List EnvVarD → List GoVal → List GoVal × List Str
  | [], cs => (cs, [])
  | _ :: _, [] => ([], [])
  | e :: es, c :: cs =>
    let r := processEnvVar ev e c
    let rest := parseLoop ev es cs
    (r.1 :: rest.1,
      (match r.2 with
        | some _ => [parseMsg ev e]
        | none => []) ++ rest.2)

/-- Model of Parse of env.go, with the registry and the cell state explicit.
The flag handling at the top of the Go function (printing Help and exiting
the process when the help flag is set) is CLI glue outside the core per the
spec and is not modelled; this is the help-flag-false path.  Go returns only
the error and mutates cells in place; here the new cells are returned
alongside it.  A nonempty error list is joined with newlines into one error. -/
def Parse (ev : Env) (r : List EnvVarD) (cells : List GoVal) :
    List GoVal × Option Str :=
  let res := parseLoop ev r cells
  (res.1, if res.2.isEmpty then none else some (String.intercalate "\n" res.2))

/-- Model of Help of env.go: a header line, then per descriptor a line with
the name and the quoted percent-v form of the default (replaced by the words
no default when that quoted form is two bare quotes), then a seven-space
separator line; all joined with newlines. -/
def Help (r : List EnvVarD) : Str :=
  let h := r.foldl (fun acc e =>
    let d0 := sqc ++ goFmtV e.defaultValue ++ sqc
    let d1 := if d0 = sqc ++ sqc then "no default" else d0
    acc ++ ["  " ++ e.name ++ " default: " ++ d1, "       "])
    ["Environment variables:"]
  String.intercalate "\n" h

/-- Model of the String constructor of env.go: descriptor with varType
string, a setValue that copies the raw value verbatim and never fails, and a
setDefault that writes the stored default (Go asserts it to string; the
assertion cannot fail for descriptors built by this constructor). -/
def String (name : Str) (required : BoolV) (defaultValue help : Str) : EnvVarD :=
  { name := name
    varType := "string"
    required := required
    defaultValue := GoVal.str defaultValue
    help := help
    setValue := fun b => some (GoVal.str b)
    setDefault := fun _ d => d }

/-- Model of the Int constructor of env.go: varType integer, setValue parses
with strconv.ParseInt base 10 bit size 64 and stores the result narrowed
with int(v) (the identity on the 64-bit platforms modelled here), and a
setDefault guarded by a type assertion with the ok form: on a non-int stored
default it silently does nothing. -/
def Int (name : Str) (required : BoolV) (defaultValue : IntV) (help : Str) : EnvVarD :=
  { name := name
    varType := "integer"
    required := required
    defaultValue := GoVal.int defaultValue
    help := help
    setValue := fun b => (goParseInt b).map GoVal.int
    setDefault := fun c d => match d with | GoVal.int _ => d | _ => c }

/-- Model of the Float64 constructor of env.go: varType float, setValue
parses with strconv.ParseFloat bit size 64, setDefault writes the stored
default through an unconditional type assertion. -/
def Float64 (name : Str) (required : BoolV) (defaultValue : FloatV) (help : Str) : EnvVarD :=
  { name := name
    varType := "float"
    required := required
    defaultValue := GoVal.float defaultValue
    help := help
    setValue := fun b => (goParseFloat b).map GoVal.float
    setDefault := fun _ d => d }

/-- Model of the Bool constructor of env.go: varType boolean, setValue parses
with strconv.ParseBool, setDefault writes the stored default through an
unconditional type assertion. -/
def Bool (name : Str) (required : BoolV) (defaultValue : BoolV) (help : Str) : EnvVarD :=
  { name := name
    varType := "boolean"
    required := required
    defaultValue := GoVal.bool defaultValue
    help := help
    setValue := fun b => (goParseBool b).map GoVal.bool
    setDefault := fun _ d => d }

end env

/-- True exactly when processEnvVar reports an error for this descriptor
under this environment: the value is empty and the variable required, or the
value is nonempty and the setValue closure rejects it. -/
def fails (ev : Env) (e : EnvVarD) : Bool :=
  if ev e.name = "" then e.required else (e.setValue (ev e.name)).isNone

/-- Value a successful pass writes into the cell of a descriptor, when it
writes one: the default when the value is empty and the variable optional,
the converted value when the raw value is accepted, and nothing otherwise.
Matches processEnvVar for descriptors whose setDefault writes the stored
default (all descriptors built by the registration API). -/
def written (ev : Env) (e : EnvVarD) : Option GoVal :=
  if ev e.name = "" then
    (if e.required then none else some e.defaultValue)
  else e.setValue (ev e.name)

lemma processEnvVar_default (ev : Env) (e : EnvVarD) (c : GoVal)
    (h : ev e.name = "") (hr : e.required = false) :
    env.processEnvVar ev e c = (e.setDefault c e.defaultValue, none) := by
  simp [env.processEnvVar, h, hr]

lemma processEnvVar_required (ev : Env) (e : EnvVarD) (c : GoVal)
    (h : ev e.name = "") (hr : e.required = true) :
    env.processEnvVar ev e c = (c, some (PErr.requiredMissing e.name)) := by
  simp [env.processEnvVar, h, hr]

lemma processEnvVar_conv (ev : Env) (e : EnvVarD) (c : GoVal)
    (h : ¬ ev e.name = "") :
    env.processEnvVar ev e c =
      match e.setValue (ev e.name) with
      | some v => (v, none)
      | none => (c, some PErr.convErr) := by
  simp [env.processEnvVar, h]

lemma processEnvVar_isSome (ev : Env) (e : EnvVarD) (c : GoVal) :
    (env.processEnvVar ev e c).2.isSome = fails ev e := by
  by_cases h : ev e.name = ""
  · cases hr : e.required
    · rw [processEnvVar_default ev e c h hr]; simp [fails, h, hr]
    · rw [processEnvVar_required ev e c h hr]; simp [fails, h, hr]
  · rw [processEnvVar_conv ev e c h]
    cases hv : e.setValue (ev e.name) <;> simp [fails, h, hv]

lemma parseLoop_fst (ev : Env) :
    ∀ (r : List EnvVarD) (cs : List GoVal), cs.length = r.length →
      (env.parseLoop ev r cs).1
        = List.zipWith (fun e c => (env.processEnvVar ev e c).1) r cs := by
  intro r
  induction r with
  | nil => intro cs h; cases cs <;> simp_all [env.parseLoop]
  | cons e es ih =>
    intro cs h
    cases cs with
    | nil => simp at h
    | cons c cst =>
      simp only [env.parseLoop, List.zipWith]
      rw [ih cst (by simpa using h)]

lemma parseLoop_snd (ev : Env) :
    ∀ (r : List EnvVarD) (cs : List GoVal), cs.length = r.length →
      (env.parseLoop ev r cs).2
        = (r.filter (fails ev)).map (env.parseMsg ev) := by
  intro r
  induction r with
  | nil => intro cs h; cases cs <;> simp_all [env.parseLoop]
  | cons e es ih =>
    intro cs h
    cases cs with
    | nil => simp at h
    | cons c cst =>
      have hrec := ih cst (by simpa using h)
      have hf := processEnvVar_isSome ev e c
      cases hv : (env.processEnvVar ev e c).2 with
      | none =>
        have : fails ev e = false := by rw [← hf, hv]; rfl
        simp [env.parseLoop, hv, hrec, List.filter, this]
      | some p =>
        have : fails ev e = true := by rw [← hf, hv]; rfl
        simp [env.parseLoop, hv, hrec, List.filter, this]

/-- Closed form of Parse for an aligned cell list: every descriptor is
processed exactly once through processEnvVar, and the returned error (when
some descriptor failed) is the newline join of the error lines of the failing
descriptors, in registration order. -/
lemma Parse_eq (ev : Env) (r : List EnvVarD) (cells : List GoVal)
    (h : cells.length = r.length) :
    env.Parse ev r cells
      = (List.zipWith (fun e c => (env.processEnvVar ev e c).1) r cells,
         if ((r.filter (fails ev)).map (env.parseMsg ev)).isEmpty then none
         else some (String.intercalate "\n"
            ((r.filter (fails ev)).map (env.parseMsg ev)))) := by
  have ha := parseLoop_fst ev r cells h
  have hb := parseLoop_snd ev r cells h
  simp only [env.Parse]
  rw [ha, hb]

lemma getAppendMid {α : Type} (l1 : List α) (x : α) (l2 : List α) :
    (l1 ++ x :: l2)[l1.length]? = some x := by
  induction l1 with
  | nil => simp
  | cons a t ih => simpa using ih

/-- Final cell list of Parse on a registry split around one descriptor. -/
lemma parse_fst_decomp (ev : Env) (r1 : List EnvVarD) (e : EnvVarD)
    (r2 : List EnvVarD) (c1 : List GoVal) (c : GoVal) (c2 : List GoVal)
    (h1 : c1.length = r1.length) (h2 : c2.length = r2.length) :
    (env.Parse ev (r1 ++ e :: r2) (c1 ++ c :: c2)).1
      = List.zipWith (fun d x => (env.processEnvVar ev d x).1) r1 c1
        ++ (env.processEnvVar ev e c).1
          :: List.zipWith (fun d x => (env.processEnvVar ev d x).1) r2 c2 := by
  have hlen : (c1 ++ c :: c2).length = (r1 ++ e :: r2).length := by
    simp [h1, h2]
  rw [Parse_eq ev _ _ hlen]
  simp only []
  rw [List.zipWith_append _ r1 _ c1 _ (h1.symm)]
  rfl

/-- Cell of the split descriptor after one Parse pass. -/
lemma parse_cell_at (ev : Env) (r1 : List EnvVarD) (e : EnvVarD)
    (r2 : List EnvVarD) (c1 : List GoVal) (c : GoVal) (c2 : List GoVal)
    (h1 : c1.length = r1.length) (h2 : c2.length = r2.length) :
    ((env.Parse ev (r1 ++ e :: r2) (c1 ++ c :: c2)).1)[c1.length]?
      = some ((env.processEnvVar ev e c).1) := by
  rw [parse_fst_decomp ev r1 e r2 c1 c c2 h1 h2]
  have hz : (List.zipWith (fun d x => (env.processEnvVar ev d x).1) r1 c1).length
      = c1.length := by
    rw [List.length_zipWith, h1, min_self]
  rw [← hz]
  exact getAppendMid _ _ _

/-- Parse reports failure whenever some registered descriptor fails. -/
lemma parse_snd_isSome (ev : Env) (r : List EnvVarD) (cells : List GoVal)
    (h : cells.length = r.length) (e : EnvVarD) (hm : e ∈ r)
    (hf : fails ev e = true) :
    (env.Parse ev r cells).2.isSome = true := by
  rw [Parse_eq ev r cells h]
  have hmem : env.parseMsg ev e ∈ (r.filter (fails ev)).map (env.parseMsg ev) :=
    List.mem_map_of_mem _ (List.mem_filter.2 ⟨hm, hf⟩)
  have hne : ((r.filter (fails ev)).map (env.parseMsg ev)).isEmpty = false := by
    cases hl : (r.filter (fails ev)).map (env.parseMsg ev) with
    | nil => rw [hl] at hmem; cases hmem
    | cons a t => rfl
  simp [hne]

/-- When written gives a value, processEnvVar stores exactly that value, for
any prior cell contents (needs the setDefault closure to write the stored
default, which holds for every descriptor built by the registration API). -/
lemma processEnvVar_written (ev : Env) (e : EnvVarD) (v : GoVal)
    (hd : ∀ x, e.setDefault x e.defaultValue = e.defaultValue)
    (hw : written ev e = some v) :
    ∀ x, (env.processEnvVar ev e x).1 = v := by
  intro x
  by_cases h : ev e.name = ""
  · cases hr : e.required
    · rw [processEnvVar_default ev e x h hr]
      have : some e.defaultValue = some v := by
        rw [← hw]; simp [written, h, hr]
      show e.setDefault x e.defaultValue = v
      rw [hd x]
      exact Option.some_inj.1 this
    · exfalso
      rw [written, if_pos h, hr] at hw
      cases hw
  · rw [processEnvVar_conv ev e x h]
    rw [written, if_neg h] at hw
    rw [hw]

/-- True when the first character list is an initial segment of the second. -/
def startsWithArr : List Char → List Char → Bool
  | [], _ => true
  | _ :: _, [] => false
  | a :: as, b :: bs => a = b && startsWithArr as bs

/-- True when the first character list occurs contiguously in the second. -/
def containsArr (n h : List Char) : Bool :=
  (List.range (h.length + 1)).any (fun i => startsWithArr n (List.drop i h))

lemma startsWithArr_self_append (n q : List Char) :
    startsWithArr n (n ++ q) = true := by
  induction n with
  | nil => rfl
  | cons a as ih => simp [startsWithArr, ih]

lemma containsArr_of_decomp (n : List Char) {h : List Char} (p q : List Char)
    (he : h = p ++ n ++ q) : containsArr n h = true := by
  subst he
  rw [containsArr, List.any_eq_true]
  refine ⟨p.length, List.mem_range.2 ?_, ?_⟩
  · have : p.length ≤ (p ++ n ++ q).length := by
      simp [List.length_append]
    omega
  · rw [List.append_assoc, List.drop_left]
    exact startsWithArr_self_append n q

lemma foldl_append_form {α β : Type} (g : α → List β) :
    ∀ (r : List α) (init : List β),
      r.foldl (fun acc e => acc ++ g e) init = init ++ (r.map g).flatten := by
  intro r
  induction r with
  | nil => intro init; simp
  | cons e es ih =>
    intro init
    simp only [List.foldl, List.map, List.flatten]
    rw [ih (init ++ g e), List.append_assoc]

/-- Valid base-10 signed integer literal in the int64 range, with its value:
an optional single sign, then one or more decimal digits, the signed value of
which is v and lies between the minimal and maximal int64. -/
def IsIntLit (s : Str) (v : Int) : Prop :=
  ∃ sgn ds, s.data = sgn ++ ds
    ∧ (sgn = [] ∨ sgn = ['+'] ∨ sgn = ['-'])
    ∧ ds ≠ []
    ∧ ds.all Char.isDigit = true
    ∧ v = (if sgn = ['-'] then -(decDigitsVal ds : Int) else (decDigitsVal ds : Int))
    ∧ -(2 ^ 63) ≤ v ∧ v ≤ 2 ^ 63 - 1



lemma signSplit_plus (t : List Char) : signSplit ('+' :: t) = (false, t) := by
  show (if ('+' : Char) = '+' then ((false, t) : Bool × List Char)
    else if ('+' : Char) = '-' then (true, t) else (false, '+' :: t)) = (false, t)
  rw [if_pos rfl]

lemma signSplit_minus (t : List Char) : signSplit ('-' :: t) = (true, t) := by
  show (if ('-' : Char) = '+' then ((false, t) : Bool × List Char)
    else if ('-' : Char) = '-' then (true, t) else (false, '-' :: t)) = (true, t)
  rw [if_neg (by decide), if_pos rfl]

lemma signSplit_other (c : Char) (t : List Char) (h1 : ¬ c = '+') (h2 : ¬ c = '-') :
    signSplit (c :: t) = (false, c :: t) := by
  show (if c = '+' then ((false, t) : Bool × List Char)
    else if c = '-' then (true, t) else (false, c :: t)) = (false, c :: t)
  rw [if_neg h1, if_neg h2]

lemma goParseIntCore_neg_iff (ds : List Char) (v : Int) :
    goParseIntCore true ds = some v ↔
      (ds ≠ [] ∧ ds.all Char.isDigit = true ∧ decDigitsVal ds ≤ 2 ^ 63
        ∧ v = -(decDigitsVal ds : Int)) := by
  unfold goParseIntCore
  by_cases h1 : ds = []
  · simp [h1]
  · by_cases h2 : ds.all Char.isDigit = true
    · rw [if_neg (by simp [h1, h2]), if_pos rfl]
      by_cases h3 : decDigitsVal ds ≤ 2 ^ 63
      · rw [if_pos h3]
        constructor
        · intro h
          exact ⟨h1, h2, h3, (Option.some_inj.1 h).symm⟩
        · rintro ⟨_, _, _, hv⟩
          rw [hv]
      · rw [if_neg h3]
        constructor
        · intro h; cases h
        · rintro ⟨_, _, h3c, _⟩
          exact absurd h3c h3
    · simp [h2]

lemma goParseIntCore_pos_iff (ds : List Char) (v : Int) :
    goParseIntCore false ds = some v ↔
      (ds ≠ [] ∧ ds.all Char.isDigit = true ∧ decDigitsVal ds ≤ 2 ^ 63 - 1
        ∧ v = (decDigitsVal ds : Int)) := by
  unfold goParseIntCore
  by_cases h1 : ds = []
  · simp [h1]
  · by_cases h2 : ds.all Char.isDigit = true
    · rw [if_neg (by simp [h1, h2]), if_neg (by decide : ¬ (false = true))]
      by_cases h3 : decDigitsVal ds ≤ 2 ^ 63 - 1
      · rw [if_pos h3]
        constructor
        · intro h
          exact ⟨h1, h2, h3, (Option.some_inj.1 h).symm⟩
        · rintro ⟨_, _, _, hv⟩
          rw [hv]
      · rw [if_neg h3]
        constructor
        · intro h; cases h
        · rintro ⟨_, _, h3c, _⟩
          exact absurd h3c h3
    · simp [h2]

lemma cast63 : (((2 : Nat) ^ 63 : Nat) : Int) = (2 : Int) ^ 63 := by
  push_cast

lemma cast63m1 : (((2 : Nat) ^ 63 - 1 : Nat) : Int) = (2 : Int) ^ 63 - 1 := by
  have h : (1 : Nat) ≤ 2 ^ 63 := Nat.one_le_two_pow
  push_cast [h]

/-- goParseInt accepts exactly the signed base-10 int64 literals, returning
the signed digit value. -/
lemma goParseInt_iff (s : Str) (v : Int) : goParseInt s = some v ↔ IsIntLit s v := by
  unfold goParseInt
  simp only [IsIntLit]
  cases hs : s.data with
  | nil =>
    constructor
    · intro h
      rw [show goParseIntCore (signSplit []).1 (signSplit []).2 = none from rfl] at h
      cases h
    · rintro ⟨sgn, ds, hdata, _, hne, _⟩
      rcases List.append_eq_nil.1 hdata.symm with ⟨_, hds⟩
      exact absurd hds hne
  | cons c cs =>
    by_cases hp : c = '+'
    · subst hp
      rw [signSplit_plus]
      rw [show ((false, cs) : Bool × List Char).1 = false from rfl,
        show ((false, cs) : Bool × List Char).2 = cs from rfl]
      rw [goParseIntCore_pos_iff]
      constructor
      · rintro ⟨hne, hdig, hle, hv⟩
        refine ⟨['+'], cs, rfl, Or.inr (Or.inl rfl), hne, hdig, ?_, ?_, ?_⟩
        · rw [if_neg (by decide : ¬ (['+'] : List Char) = ['-'])]
          exact hv
        · have h0 : (0 : Int) ≤ (decDigitsVal cs : Int) := Int.ofNat_nonneg _
          omega
        · have hz : (decDigitsVal cs : Int) ≤ (2 : Int) ^ 63 - 1 := by
            rw [← cast63m1]; exact_mod_cast hle
          omega
      · rintro ⟨sgn, ds, hdata, hsgn, hne, hdig, hv, hlo, hhi⟩
        rcases hsgn with h0 | h0 | h0
        · subst h0
          rw [List.nil_append] at hdata
          subst hdata
          have hc : ('+' : Char) ∈ ('+' :: cs : List Char) := List.mem_cons_self _ _
          have := (List.all_eq_true.1 hdig) '+' hc
          simp [Char.isDigit] at this
        · subst h0
          simp only [List.cons_append, List.nil_append] at hdata
          injection hdata with _ hds
          subst hds
          rw [if_neg (by decide : ¬ (['+'] : List Char) = ['-'])] at hv
          refine ⟨hne, hdig, ?_, hv⟩
          have hz : (decDigitsVal cs : Int) ≤ (2 : Int) ^ 63 - 1 := by
            rw [← hv]; exact hhi
          rw [← cast63m1] at hz
          exact_mod_cast hz
        · subst h0
          simp only [List.cons_append, List.nil_append] at hdata
          injection hdata with hc _
          exact absurd hc (by decide)
    · by_cases hm : c = '-'
      · subst hm
        rw [signSplit_minus]
        rw [show ((true, cs) : Bool × List Char).1 = true from rfl,
          show ((true, cs) : Bool × List Char).2 = cs from rfl]
        rw [goParseIntCore_neg_iff]
        constructor
        · rintro ⟨hne, hdig, hle, hv⟩
          refine ⟨['-'], cs, rfl, Or.inr (Or.inr rfl), hne, hdig, ?_, ?_, ?_⟩
          · rw [if_pos rfl]
            exact hv
          · have hz : (decDigitsVal cs : Int) ≤ (2 : Int) ^ 63 := by
              rw [← cast63]; exact_mod_cast hle
            omega
          · have h0 : (0 : Int) ≤ (decDigitsVal cs : Int) := Int.ofNat_nonneg _
            omega
        · rintro ⟨sgn, ds, hdata, hsgn, hne, hdig, hv, hlo, hhi⟩
          rcases hsgn with h0 | h0 | h0
          · subst h0
            rw [List.nil_append] at hdata
            subst hdata
            have hc : ('-' : Char) ∈ ('-' :: cs : List Char) := List.mem_cons_self _ _
            have := (List.all_eq_true.1 hdig) '-' hc
            simp [Char.isDigit] at this
          · subst h0
            simp only [List.cons_append, List.nil_append] at hdata
            injection hdata with hc _
            exact absurd hc (by decide)
          · subst h0
            simp only [List.cons_append, List.nil_append] at hdata
            injection hdata with _ hds
            subst hds
            rw [if_pos rfl] at hv
            refine ⟨hne, hdig, ?_, hv⟩
            have hz : -((2 : Int) ^ 63) ≤ -(decDigitsVal cs : Int) := by
              rw [← hv]; exact hlo
            have hz2 : (decDigitsVal cs : Int) ≤ (2 : Int) ^ 63 := by omega
            rw [← cast63] at hz2
            exact_mod_cast hz2
      · rw [signSplit_other c cs hp hm]
        rw [show ((false, c :: cs) : Bool × List Char).1 = false from rfl,
          show ((false, c :: cs) : Bool × List Char).2 = c :: cs from rfl]
        rw [goParseIntCore_pos_iff]
        constructor
        · rintro ⟨hne, hdig, hle, hv⟩
          refine ⟨[], c :: cs, (List.nil_append _).symm, Or.inl rfl, hne, hdig, ?_, ?_, ?_⟩
          · rw [if_neg (by decide : ¬ ([] : List Char) = ['-'])]
            exact hv
          · have h0 : (0 : Int) ≤ (decDigitsVal (c :: cs) : Int) := Int.ofNat_nonneg _
            omega
          · have hz : (decDigitsVal (c :: cs) : Int) ≤ (2 : Int) ^ 63 - 1 := by
              rw [← cast63m1]; exact_mod_cast hle
            omega
        · rintro ⟨sgn, ds, hdata, hsgn, hne, hdig, hv, hlo, hhi⟩
          rcases hsgn with h0 | h0 | h0
          · subst h0
            rw [List.nil_append] at hdata
            subst hdata
            rw [if_neg (by decide : ¬ ([] : List Char) = ['-'])] at hv
            refine ⟨hne, hdig, ?_, hv⟩
            have hz : (decDigitsVal (c :: cs) : Int) ≤ (2 : Int) ^ 63 - 1 := by
              rw [← hv]; exact hhi
            rw [← cast63m1] at hz
            exact_mod_cast hz
          · subst h0
            simp only [List.cons_append, List.nil_append] at hdata
            injection hdata with hc _
            exact absurd hc hp
          · subst h0
            simp only [List.cons_append, List.nil_append] at hdata
            injection hdata with hc _
            exact absurd hc hm

lemma intercalate_singleton (sep m : Str) : String.intercalate sep [m] = m := rfl

/-- Registry of the PORT and HOST scenario: PORT, integer, required, zero
default, registered before HOST, string, required, empty default. -/
def portHostReg : List EnvVarD :=
  [env.Int "PORT" true 0 "bind port", env.String "HOST" true "" "host name"]

/-- Environment of the PORT and HOST scenario: PORT set to 8080, every other
name unset. -/
def portHostEnv : Env := fun n => if n = "PORT" then "8080" else ""

/-- Descriptor HOST, string, required, empty default. -/
def hostReqD : EnvVarD := env.String "HOST" true "" "host name"

/-- Environment with every name unset. -/
def emptyEnv : Env := fun _ => ""

/-- C1: Parse attempts every registered descriptor exactly once per call with
no short-circuiting: the final cell list is the pointwise processEnvVar image
of the registry against the cell state.  When at least one descriptor fails it
returns an aggregated error joining the per-descriptor failure lines with
newlines in registration order, and when no descriptor fails it returns
success (no error). -/
theorem parse_attempts_all_and_aggregates (ev : Env) (r : List EnvVarD)
    (cells : List GoVal) (h : cells.length = r.length) :
    env.Parse ev r cells
      = (List.zipWith (fun e c => (env.processEnvVar ev e c).1) r cells,
         if ((r.filter (fails ev)).map (env.parseMsg ev)).isEmpty then none
         else some (String.intercalate "\n"
            ((r.filter (fails ev)).map (env.parseMsg ev)))) :=
  Parse_eq ev r cells h

theorem parse_attempts_all_and_aggregates_witness :
    ([GoVal.str ""] : List GoVal).length
        = ([env.String "A" false "x" "ha"] : List EnvVarD).length
    ∧ env.Parse emptyEnv [env.String "A" false "x" "ha"] [GoVal.str ""]
      = (List.zipWith (fun e c => (env.processEnvVar emptyEnv e c).1)
          [env.String "A" false "x" "ha"] [GoVal.str ""],
         if (([env.String "A" false "x" "ha"].filter (fails emptyEnv)).map
              (env.parseMsg emptyEnv)).isEmpty then none
         else some (String.intercalate "\n"
            (([env.String "A" false "x" "ha"].filter (fails emptyEnv)).map
              (env.parseMsg emptyEnv)))) :=
  ⟨rfl, parse_attempts_all_and_aggregates emptyEnv
    [env.String "A" false "x" "ha"] [GoVal.str ""] rfl⟩

/-- C2: in the PORT before HOST registry with PORT=8080 and HOST unset, Parse
fails with an aggregated message naming HOST, and the PORT output cell is
nonetheless set to 8080 while the HOST cell keeps its zero value. -/
theorem port_host_scenario :
    env.Parse portHostEnv portHostReg [GoVal.int 0, GoVal.str ""]
      = ([GoVal.int 8080, GoVal.str ""], some "expected: HOST type: string got: ")
    ∧ (∃ pre post : List Char,
        ("expected: HOST type: string got: " : Str).data
          = pre ++ ("HOST" : Str).data ++ post) := by
  constructor
  · decide
  · exact ⟨("expected: " : Str).data, (" type: string got: " : Str).data, by decide⟩

/-- C3 counterexample: for the required HOST descriptor with empty
environment, the descriptor-level message the code records is
"HOST should be provided", not "missing required variable HOST", and the
aggregated error of Parse is the differently formatted line
"expected: HOST type: string got: ", which does not contain the message text
the claim states. -/
theorem required_missing_message_counterexample :
    (env.processEnvVar emptyEnv hostReqD (GoVal.str "")).2
        = some (PErr.requiredMissing "HOST")
    ∧ PErr.message (PErr.requiredMissing "HOST") = "HOST should be provided"
    ∧ "HOST should be provided" ≠ "missing required variable HOST"
    ∧ (env.Parse emptyEnv [hostReqD] [GoVal.str ""]).2
        = some "expected: HOST type: string got: "
    ∧ ¬ ∃ pre post : List Char,
        ("expected: HOST type: string got: " : Str).data
          = pre ++ ("missing required variable HOST" : Str).data ++ post := by
  refine ⟨rfl, rfl, by decide, rfl, ?_⟩
  rintro ⟨pre, post, hdec⟩
  have hc := containsArr_of_decomp ("missing required variable HOST" : Str).data
    pre post hdec
  rw [show containsArr ("missing required variable HOST" : Str).data
      ("expected: HOST type: string got: " : Str).data = false from by decide] at hc
  cases hc

/-- C3 amended: for every descriptor whose environment value is empty and
whose required flag is true, processEnvVar records a descriptor-level
failure whose message is the name followed by " should be provided" (not
"missing required variable name"); Parse returns failure, but the line it
aggregates for that descriptor is its own format
"expected: name type: kind got: " with the empty raw value — the
descriptor-level message text is discarded and never enters the aggregate. -/
theorem required_missing_message_amended (ev : Env) (r : List EnvVarD)
    (e : EnvVarD) (c : GoVal) (cells : List GoVal)
    (he : ev e.name = "") (hr : e.required = true) (hm : e ∈ r)
    (hlen : cells.length = r.length) :
    (env.processEnvVar ev e c).2 = some (PErr.requiredMissing e.name)
    ∧ PErr.message (PErr.requiredMissing e.name) = e.name ++ " should be provided"
    ∧ env.parseMsg ev e
        = "expected: " ++ e.name ++ " type: " ++ e.varType ++ " got: "
    ∧ env.parseMsg ev e ∈ (r.filter (fails ev)).map (env.parseMsg ev)
    ∧ (env.Parse ev r cells).2.isSome = true := by
  refine ⟨?_, rfl, ?_, ?_, ?_⟩
  · rw [processEnvVar_required ev e c he hr]
  · rw [env.parseMsg, he, String.append_empty]
  · exact List.mem_map_of_mem _ (List.mem_filter.2 ⟨hm, by simp [fails, he, hr]⟩)
  · exact parse_snd_isSome ev r cells hlen e hm (by simp [fails, he, hr])

theorem required_missing_message_amended_witness :
    emptyEnv hostReqD.name = ""
    ∧ hostReqD.required = true
    ∧ hostReqD ∈ [hostReqD]
    ∧ ([GoVal.str ""] : List GoVal).length = ([hostReqD] : List EnvVarD).length
    ∧ ((env.processEnvVar emptyEnv hostReqD (GoVal.str "")).2
          = some (PErr.requiredMissing hostReqD.name)
      ∧ PErr.message (PErr.requiredMissing hostReqD.name)
          = hostReqD.name ++ " should be provided"
      ∧ env.parseMsg emptyEnv hostReqD
          = "expected: " ++ hostReqD.name ++ " type: " ++ hostReqD.varType ++ " got: "
      ∧ env.parseMsg emptyEnv hostReqD
          ∈ ([hostReqD].filter (fails emptyEnv)).map (env.parseMsg emptyEnv)
      ∧ (env.Parse emptyEnv [hostReqD] [GoVal.str ""]).2.isSome = true) :=
  ⟨rfl, rfl, List.mem_singleton.mpr rfl, rfl,
    required_missing_message_amended emptyEnv [hostReqD] hostReqD (GoVal.str "")
      [GoVal.str ""] rfl rfl (List.mem_singleton.mpr rfl) rfl⟩

/-- C4: a variable declared required whose environment key is absent (reads
as empty) makes Parse fail, and its output cell keeps exactly its pre-parse
value: the failing pass never writes it. -/
theorem required_absent_cell_untouched (ev : Env) (r1 : List EnvVarD)
    (e : EnvVarD) (r2 : List EnvVarD) (c1 : List GoVal) (c : GoVal)
    (c2 : List GoVal) (h1 : c1.length = r1.length) (h2 : c2.length = r2.length)
    (hr : e.required = true) (he : ev e.name = "") :
    (env.Parse ev (r1 ++ e :: r2) (c1 ++ c :: c2)).2.isSome = true
    ∧ ((env.Parse ev (r1 ++ e :: r2) (c1 ++ c :: c2)).1)[c1.length]? = some c := by
  constructor
  · exact parse_snd_isSome ev _ _ (by simp [h1, h2]) e (by simp)
      (by simp [fails, he, hr])
  · rw [parse_cell_at ev r1 e r2 c1 c c2 h1 h2,
      processEnvVar_required ev e c he hr]

theorem required_absent_cell_untouched_witness :
    ([] : List GoVal).length = ([] : List EnvVarD).length
    ∧ ([] : List GoVal).length = ([] : List EnvVarD).length
    ∧ (env.Int "PORT" true 0 "bind port").required = true
    ∧ emptyEnv (env.Int "PORT" true 0 "bind port").name = ""
    ∧ ((env.Parse emptyEnv ([] ++ (env.Int "PORT" true 0 "bind port") :: [])
          ([] ++ GoVal.int 0 :: [])).2.isSome = true
      ∧ ((env.Parse emptyEnv ([] ++ (env.Int "PORT" true 0 "bind port") :: [])
          ([] ++ GoVal.int 0 :: [])).1)[([] : List GoVal).length]?
            = some (GoVal.int 0)) :=
  ⟨rfl, rfl, rfl, rfl,
    required_absent_cell_untouched emptyEnv [] (env.Int "PORT" true 0 "bind port")
      [] [] (GoVal.int 0) [] rfl rfl rfl rfl⟩

/-- C5: a variable declared not required with default D whose environment
value is empty has, after Parse, its output cell equal to D exactly, with no
validation or conversion applied to D (needs only that the setDefault
closure of the descriptor writes its stored default, which holds for every
descriptor built by the registration API). -/
theorem optional_default_applied (ev : Env) (r1 : List EnvVarD)
    (e : EnvVarD) (r2 : List EnvVarD) (c1 : List GoVal) (c : GoVal)
    (c2 : List GoVal) (h1 : c1.length = r1.length) (h2 : c2.length = r2.length)
    (hd : ∀ x, e.setDefault x e.defaultValue = e.defaultValue)
    (hr : e.required = false) (he : ev e.name = "") :
    ((env.Parse ev (r1 ++ e :: r2) (c1 ++ c :: c2)).1)[c1.length]?
      = some e.defaultValue := by
  rw [parse_cell_at ev r1 e r2 c1 c c2 h1 h2,
    processEnvVar_default ev e c he hr]
  show some (e.setDefault c e.defaultValue) = some e.defaultValue
  rw [hd c]

/-- Descriptor of the TIMEOUT scenario of the spec: float, optional, default
written 30.0. -/
def timeoutD : EnvVarD := env.Float64 "TIMEOUT" false (FloatV.lit "30.0") "request timeout"

theorem optional_default_applied_witness :
    ([] : List GoVal).length = ([] : List EnvVarD).length
    ∧ ([] : List GoVal).length = ([] : List EnvVarD).length
    ∧ (∀ x, timeoutD.setDefault x timeoutD.defaultValue = timeoutD.defaultValue)
    ∧ timeoutD.required = false
    ∧ emptyEnv timeoutD.name = ""
    ∧ ((env.Parse emptyEnv ([] ++ timeoutD :: [])
        ([] ++ GoVal.float FloatV.zero :: [])).1)[([] : List GoVal).length]?
          = some (GoVal.float (FloatV.lit "30.0")) :=
  ⟨rfl, rfl, fun _ => rfl, rfl, rfl,
    optional_default_applied emptyEnv [] timeoutD [] [] (GoVal.float FloatV.zero)
      [] rfl rfl (fun _ => rfl) rfl rfl⟩

lemma int_parse_singleton (name helpT : Str) (req : BoolV) (dflt : IntV)
    (ev : Env) (hne : ¬ ev name = "") :
    env.Parse ev [env.Int name req dflt helpT] [GoVal.int 0]
      = match goParseInt (ev name) with
        | some v => ([GoVal.int v], none)
        | none => ([GoVal.int 0],
            some (env.parseMsg ev (env.Int name req dflt helpT))) := by
  cases hg : goParseInt (ev name) with
  | some v =>
    simp [env.Parse, env.parseLoop, env.processEnvVar, env.Int, hne, hg]
  | none =>
    simp [env.Parse, env.parseLoop, env.processEnvVar, env.Int, hne, hg,
      intercalate_singleton]

/-- C6: the integer conversion accepts exactly the base-10, signed integer
literals whose value fits in int64 (the narrowing with int(v) afterwards is
the identity on the 64-bit platforms modelled), writes the parsed value into
the output cell on success, and on every other nonempty string fails, leaving
the cell at its zero value and making Parse return a failure line containing
the variable name and the kind word integer. -/
theorem int_conversion_spec (name helpT : Str) (req : BoolV) (dflt : IntV)
    (ev : Env) (raw : Str) (v : IntV) (hr : ev name = raw) (hne : raw ≠ "") :
    (goParseInt raw = some v ↔ IsIntLit raw v)
    ∧ (goParseInt raw = some v →
        env.Parse ev [env.Int name req dflt helpT] [GoVal.int 0]
          = ([GoVal.int v], none))
    ∧ (goParseInt raw = none →
        env.Parse ev [env.Int name req dflt helpT] [GoVal.int 0]
          = ([GoVal.int 0],
             some ("expected: " ++ name ++ " type: " ++ "integer" ++ " got: " ++ raw))
        ∧ (∃ pre post : List Char,
            ("expected: " ++ name ++ " type: " ++ "integer" ++ " got: " ++ raw : Str).data
              = pre ++ name.data ++ post)
        ∧ (∃ pre post : List Char,
            ("expected: " ++ name ++ " type: " ++ "integer" ++ " got: " ++ raw : Str).data
              = pre ++ ("integer" : Str).data ++ post)) := by
  subst hr
  have hne2 : ¬ ev name = "" := hne
  refine ⟨goParseInt_iff _ v, ?_, ?_⟩
  · intro hg
    rw [int_parse_singleton name helpT req dflt ev hne2, hg]
  · intro hg
    rw [int_parse_singleton name helpT req dflt ev hne2, hg]
    refine ⟨rfl, ?_, ?_⟩
    · refine ⟨("expected: " : Str).data,
        (" type: " ++ "integer" ++ " got: " ++ ev name : Str).data, ?_⟩
      simp [String.data_append, List.append_assoc]
    · refine ⟨("expected: " ++ name ++ " type: " : Str).data,
        (" got: " ++ ev name : Str).data, ?_⟩
      simp [String.data_append, List.append_assoc]

theorem int_conversion_spec_witness :
    (fun _ => "12" : Env) "N" = "12"
    ∧ ("12" : Str) ≠ ""
    ∧ ((goParseInt "12" = some 12 ↔ IsIntLit "12" 12)
      ∧ (goParseInt "12" = some 12 →
          env.Parse (fun _ => "12") [env.Int "N" true 0 "hn"] [GoVal.int 0]
            = ([GoVal.int 12], none))
      ∧ (goParseInt "12" = none →
          env.Parse (fun _ => "12") [env.Int "N" true 0 "hn"] [GoVal.int 0]
            = ([GoVal.int 0],
               some ("expected: " ++ "N" ++ " type: " ++ "integer" ++ " got: " ++ "12"))
          ∧ (∃ pre post : List Char,
              ("expected: " ++ "N" ++ " type: " ++ "integer" ++ " got: " ++ "12" : Str).data
                = pre ++ ("N" : Str).data ++ post)
          ∧ (∃ pre post : List Char,
              ("expected: " ++ "N" ++ " type: " ++ "integer" ++ " got: " ++ "12" : Str).data
                = pre ++ ("integer" : Str).data ++ post))) :=
  ⟨rfl, by decide,
    int_conversion_spec "N" "hn" true 0 (fun _ => "12") "12" 12 rfl (by decide)⟩

/-- Descriptor FLAG, boolean, required. -/
def flagBoolD : EnvVarD := env.Bool "FLAG" true false "feature flag"

/-- Environment giving every name the mixed-case value tRue. -/
def caseVariantEnv : Env := fun _ => "tRue"

/-- C7 counterexample: tRue is a case variant of true (its lowercase image is
true), yet the boolean conversion rejects it, so Parse fails on it; the
conversion does not accept every case variant, only the lower, capitalized
and upper spellings strconv.ParseBool knows. -/
theorem bool_case_variant_counterexample :
    ("tRue" : Str).data.map Char.toLower = ("true" : Str).data
    ∧ flagBoolD.setValue "tRue" = none
    ∧ env.Parse caseVariantEnv [flagBoolD] [GoVal.bool false]
      = ([GoVal.bool false], some "expected: FLAG type: boolean got: tRue") := by
  refine ⟨by decide, rfl, by decide⟩

/-- C7 amended: the boolean conversion accepts exactly the twelve
strconv.ParseBool literals: 1, t, T, TRUE, true and True as true, and 0, f,
F, FALSE, false and False as false (the lower, capitalized and all-caps
spellings, not every case variant), and rejects everything else, among them
maybe. -/
theorem bool_literals_amended (name helpT : Str) (req dflt : BoolV) :
    (∀ s : Str, (env.Bool name req dflt helpT).setValue s = some (GoVal.bool true)
        ↔ (s = "1" ∨ s = "t" ∨ s = "T" ∨ s = "TRUE" ∨ s = "true" ∨ s = "True"))
    ∧ (∀ s : Str, (env.Bool name req dflt helpT).setValue s = some (GoVal.bool false)
        ↔ (s = "0" ∨ s = "f" ∨ s = "F" ∨ s = "FALSE" ∨ s = "false" ∨ s = "False"))
    ∧ (env.Bool name req dflt helpT).setValue "maybe" = none := by
  refine ⟨?_, ?_, rfl⟩
  · intro s
    show (goParseBool s).map GoVal.bool = some (GoVal.bool true) ↔ _
    unfold goParseBool
    by_cases h1 : s = "1" ∨ s = "t" ∨ s = "T" ∨ s = "TRUE" ∨ s = "true" ∨ s = "True"
    · rw [if_pos h1]
      simp [h1]
    · rw [if_neg h1]
      by_cases h2 : s = "0" ∨ s = "f" ∨ s = "F" ∨ s = "FALSE" ∨ s = "false" ∨ s = "False"
      · rw [if_pos h2]
        simp [h1]
      · rw [if_neg h2]
        simp [h1]
  · intro s
    show (goParseBool s).map GoVal.bool = some (GoVal.bool false) ↔ _
    unfold goParseBool
    by_cases h1 : s = "1" ∨ s = "t" ∨ s = "T" ∨ s = "TRUE" ∨ s = "true" ∨ s = "True"
    · rw [if_pos h1]
      rcases h1 with h | h | h | h | h | h <;> subst h <;> decide
    · rw [if_neg h1]
      by_cases h2 : s = "0" ∨ s = "f" ∨ s = "F" ∨ s = "FALSE" ∨ s = "false" ∨ s = "False"
      · rw [if_pos h2]
        simp [h2]
      · rw [if_neg h2]
        simp [h2]

/-- C8: Parse re-reads the environment on every call; whenever a call
successfully processes a descriptor (written gives a value under the
environment of that call), the output cell after that call holds exactly the
value determined by that environment snapshot, regardless of any earlier
call, its environment, or the prior cell contents (no stale caching). -/
theorem reparse_matches_current_env (ev1 ev2 : Env) (r1 : List EnvVarD)
    (e : EnvVarD) (r2 : List EnvVarD) (c1 : List GoVal) (c : GoVal)
    (c2 : List GoVal) (h1 : c1.length = r1.length) (h2 : c2.length = r2.length)
    (hd : ∀ x, e.setDefault x e.defaultValue = e.defaultValue)
    (v w : GoVal) :
    (written ev1 e = some v →
      ((env.Parse ev1 (r1 ++ e :: r2) (c1 ++ c :: c2)).1)[c1.length]? = some v)
    ∧ (written ev2 e = some w →
      ((env.Parse ev2 (r1 ++ e :: r2)
          ((env.Parse ev1 (r1 ++ e :: r2) (c1 ++ c :: c2)).1)).1)[c1.length]?
        = some w) := by
  constructor
  · intro hw
    rw [parse_cell_at ev1 r1 e r2 c1 c c2 h1 h2,
      processEnvVar_written ev1 e v hd hw c]
  · intro hw
    rw [parse_fst_decomp ev1 r1 e r2 c1 c c2 h1 h2]
    have hz1 : (List.zipWith (fun d x => (env.processEnvVar ev1 d x).1) r1 c1).length
        = r1.length := by
      rw [List.length_zipWith, h1, min_self]
    have hz2 : (List.zipWith (fun d x => (env.processEnvVar ev1 d x).1) r2 c2).length
        = r2.length := by
      rw [List.length_zipWith, h2, min_self]
    have hidx : c1.length
        = (List.zipWith (fun d x => (env.processEnvVar ev1 d x).1) r1 c1).length := by
      rw [hz1, h1]
    rw [hidx, parse_cell_at ev2 r1 e r2 _ _ _ hz1 hz2,
      processEnvVar_written ev2 e w hd hw _]

/-- Environment giving every name the value 1. -/
def oneEnv : Env := fun _ => "1"

/-- Environment giving every name the value 2. -/
def twoEnv : Env := fun _ => "2"

theorem reparse_matches_current_env_witness :
    ([] : List GoVal).length = ([] : List EnvVarD).length
    ∧ ([] : List GoVal).length = ([] : List EnvVarD).length
    ∧ (∀ x, (env.Int "PORT" true 0 "bind port").setDefault x
          (env.Int "PORT" true 0 "bind port").defaultValue
        = (env.Int "PORT" true 0 "bind port").defaultValue)
    ∧ ((written oneEnv (env.Int "PORT" true 0 "bind port") = some (GoVal.int 1) →
        ((env.Parse oneEnv ([] ++ (env.Int "PORT" true 0 "bind port") :: [])
            ([] ++ GoVal.int 0 :: [])).1)[([] : List GoVal).length]?
          = some (GoVal.int 1))
      ∧ (written twoEnv (env.Int "PORT" true 0 "bind port") = some (GoVal.int 2) →
        ((env.Parse twoEnv ([] ++ (env.Int "PORT" true 0 "bind port") :: [])
            ((env.Parse oneEnv ([] ++ (env.Int "PORT" true 0 "bind port") :: [])
              ([] ++ GoVal.int 0 :: [])).1)).1)[([] : List GoVal).length]?
          = some (GoVal.int 2))) :=
  ⟨rfl, rfl, fun _ => rfl,
    reparse_matches_current_env oneEnv twoEnv [] (env.Int "PORT" true 0 "bind port")
      [] [] (GoVal.int 0) [] rfl rfl (fun _ => rfl) (GoVal.int 1) (GoVal.int 2)⟩

/-- C9: Help renders, for every registry state, a fixed header line followed
per descriptor in registration order by an indented name-and-default line
(with the words no default when the quoted form of the default is two bare
quotes) and a whitespace-only separator line, all joined with newlines; on
the empty registry it returns just the header line, and it is a total pure
function of the registry. -/
theorem help_listing_spec (r : List EnvVarD) :
    env.Help r = String.intercalate "\n"
        ("Environment variables:" ::
          (r.map (fun e =>
            ["  " ++ e.name ++ " default: " ++
              (if sqc ++ goFmtV e.defaultValue ++ sqc = sqc ++ sqc then "no default"
               else sqc ++ goFmtV e.defaultValue ++ sqc),
             "       "])).flatten)
    ∧ env.Help ([] : List EnvVarD) = "Environment variables:"
    ∧ ("       " : Str).data.all (fun ch => ch = ' ') = true := by
  refine ⟨?_, rfl, by decide⟩
  simp only [env.Help]
  rw [foldl_append_form (fun e : EnvVarD =>
    ["  " ++ e.name ++ " default: " ++
      (if sqc ++ goFmtV e.defaultValue ++ sqc = sqc ++ sqc then "no default"
       else sqc ++ goFmtV e.defaultValue ++ sqc),
     "       "]) r ["Environment variables:"]]
  rfl

/-- C10: for a descriptor of any kind, when the raw environment value is
nonempty and the conversion closure rejects it, the Parse pass leaves the
output cell of that descriptor exactly as it was: a failing conversion never
writes a partial or zero value into the cell. -/
theorem failed_conversion_preserves_cell (ev : Env) (r1 : List EnvVarD)
    (e : EnvVarD) (r2 : List EnvVarD) (c1 : List GoVal) (c : GoVal)
    (c2 : List GoVal) (h1 : c1.length = r1.length) (h2 : c2.length = r2.length)
    (he : ¬ ev e.name = "") (hv : e.setValue (ev e.name) = none) :
    ((env.Parse ev (r1 ++ e :: r2) (c1 ++ c :: c2)).1)[c1.length]? = some c := by
  rw [parse_cell_at ev r1 e r2 c1 c c2 h1 h2, processEnvVar_conv ev e c he, hv]

/-- Environment giving every name the value abc. -/
def abcEnv : Env := fun _ => "abc"

theorem failed_conversion_preserves_cell_witness :
    ([] : List GoVal).length = ([] : List EnvVarD).length
    ∧ ([] : List GoVal).length = ([] : List EnvVarD).length
    ∧ ¬ abcEnv (env.Int "PORT" false 7 "bind port").name = ""
    ∧ (env.Int "PORT" false 7 "bind port").setValue
        (abcEnv (env.Int "PORT" false 7 "bind port").name) = none
    ∧ ((env.Parse abcEnv ([] ++ (env.Int "PORT" false 7 "bind port") :: [])
        ([] ++ GoVal.int 5 :: [])).1)[([] : List GoVal).length]?
          = some (GoVal.int 5) :=
  ⟨rfl, rfl, by decide, rfl,
    failed_conversion_preserves_cell abcEnv [] (env.Int "PORT" false 7 "bind port")
      [] [] (GoVal.int 5) [] rfl rfl (by decide) rfl⟩
